import Mathlib

/-!
Shallow embedding of the resumable, checkpointed Jira pagination engine
(`src/config.py`, `src/checkpoint_manager.py`, `src/scraper.py`, `src/main.py`).

The filesystem checkpoint file is modelled as the parsed JSON document it
holds (`Option JsonVal`); the remote endpoint is modelled as a function from
the index of the HTTP request (in the order the run issues them) to its
outcome; wall-clock timestamps are abstracted to a string parameter.  Every
observable action of a run (HTTP requests, sleeps, batch-file writes,
checkpoint writes) is recorded in an event trace.
-/

namespace Scraper

/-! From `config.py`. -/

def MAX_RESULTS_PER_PAGE : Nat := 100

def MAX_RETRIES : Nat := 5

/-! JSON documents, as produced by `json.dump` / consumed by `json.load`. -/

inductive JsonVal where
  | num (n : Nat)
  | str (s : String)
  | arr (elems : List JsonVal)
  | obj (fields : List (String × JsonVal))

/-- The dictionary built at `scraper.py:141-147` and handed to
`CheckpointManager.save_checkpoint`.  `last_updated` carries the
`datetime.now().isoformat()` string, abstracted to an arbitrary string. -/
structure CheckpointData where
  last_start_at : Nat
  total_fetched : Nat
  total_issues : Nat
  last_updated : String
  project_key : String
deriving DecidableEq, Repr

def encodeCheckpoint (c : CheckpointData) : JsonVal :=
  .obj [("last_start_at", .num c.last_start_at),
        ("total_fetched", .num c.total_fetched),
        ("total_issues", .num c.total_issues),
        ("last_updated", .str c.last_updated),
        ("project_key", .str c.project_key)]

def lookupField : List (String × JsonVal) → String → Option JsonVal
  | [], _ => none
  | (k, v) :: rest, key => if k = key then some v else lookupField rest key

def decodeCheckpoint (j : JsonVal) : Option CheckpointData :=
  match j with
  | .obj fields =>
    match lookupField fields "last_start_at", lookupField fields "total_fetched",
          lookupField fields "total_issues", lookupField fields "last_updated",
          lookupField fields "project_key" with
    | some (.num a), some (.num b), some (.num t), some (.str u), some (.str p) =>
      some ⟨a, b, t, u, p⟩
    | _, _, _, _, _ => none
  | _ => none

/-! `checkpoint_manager.py`.  The checkpoint file of one source key is
modelled by the JSON document it holds (`none` = file absent).  Parse
errors on an uncorrupted store are not modelled. -/

/-- `CheckpointManager.save_checkpoint`: opens the file in `'w'` mode and
dumps the data, overwriting (never appending to) previous content. -/
def save_checkpoint (_store : Option JsonVal) (data : JsonVal) : Option JsonVal :=
  some data

/-- `CheckpointManager.load_checkpoint`: returns the parsed document, or
`none` when the file does not exist. -/
def load_checkpoint (store : Option JsonVal) : Option JsonVal :=
  store

/-- Python `data.get('last_start_at', 0)` as used by `get_last_position`. -/
def jsonGetNat (j : JsonVal) (key : String) : Nat :=
  match j with
  | .obj fields =>
    match lookupField fields key with
    | some (.num n) => n
    | _ => 0
  | _ => 0

/-- `CheckpointManager.get_last_position`. -/
def get_last_position (store : Option JsonVal) : Nat :=
  match load_checkpoint store with
  | some data => jsonGetNat data "last_start_at"
  | none => 0

/-! Exceptions of `scraper.py`.  In the `requests` library, `HTTPError`,
`Timeout` and `ConnectionError` are all subclasses of `RequestException`;
`tenacity.RetryError` (raised when the attempt budget is exhausted, since
the decorator leaves `reraise` at its default `False`) is not. -/

inductive PyExc where
  | httpError (status : Nat)
  | timeout
  | connectionError
  | retryError (last : PyExc)
deriving DecidableEq, Repr

def isRequestException : PyExc → Bool
  | .httpError _ => true
  | .timeout => true
  | .connectionError => true
  | .retryError _ => false

def isTimeoutExc : PyExc → Bool
  | .timeout => true
  | _ => false

def isConnectionErrorExc : PyExc → Bool
  | .connectionError => true
  | _ => false

/-- The predicate installed by
`retry_if_exception_type((RequestException, Timeout, ConnectionError))` at
`scraper.py:52-56`; `isinstance` checks match subclasses. -/
def isRetryableExc (e : PyExc) : Bool :=
  isRequestException e || isTimeoutExc e || isConnectionErrorExc e

/-- The fields of the JSON body that the scraper reads
(`response['total']`, `response['issues']`); records are abstract ids. -/
structure JiraResponse where
  total : Nat
  issues : List Nat
deriving DecidableEq, Repr

/-- What one HTTP GET (`session.get` at `scraper.py:62`) can do. -/
inductive HttpOutcome where
  | ok (body : JiraResponse)
  | status (code : Nat)
  | timeout
  | connectionError

/-- The remote endpoint: outcome of the i-th HTTP request of the run. -/
abbrev Server := Nat → HttpOutcome

/-- Observable actions of a run, in order. -/
inductive Event where
  | request (offset : Nat)
  | sleepBackoff
  | sleepCooldown
  | sleepPoliteness
  | saveBatch (batchNumber count offset : Nat)
  | saveCheckpoint (data : CheckpointData)
deriving DecidableEq, Repr

/-- One attempt of the body of `_make_request`: issue the GET and apply
`raise_for_status` (non-2xx statuses raise `HTTPError(status)`). -/
def attemptOnce (server : Server) (reqIdx : Nat) : Except PyExc JiraResponse :=
  match server reqIdx with
  | .ok body => .ok body
  | .status c => .error (.httpError c)
  | .timeout => .error .timeout
  | .connectionError => .error .connectionError

/-- `_make_request` under its tenacity decorator.  `attemptsLeft` counts the
retries still allowed after the current attempt; a retryable exception on
the final allowed attempt is wrapped in `tenacity.RetryError`
(`stop_after_attempt(MAX_RETRIES)` with the default `reraise=False`); a
non-retryable exception propagates unchanged; otherwise a backoff sleep
precedes the next attempt.  Returns the result, the next request index and
the events produced. -/
def makeRequestAux (server : Server) (offset : Nat) :
    Nat → Nat → Except PyExc JiraResponse × Nat × List Event
  | 0, reqIdx =>
    match attemptOnce server reqIdx with
    | .ok body => (.ok body, reqIdx + 1, [.request offset])
    | .error e =>
      if isRetryableExc e then (.error (.retryError e), reqIdx + 1, [.request offset])
      else (.error e, reqIdx + 1, [.request offset])
  | n + 1, reqIdx =>
    match attemptOnce server reqIdx with
    | .ok body => (.ok body, reqIdx + 1, [.request offset])
    | .error e =>
      if isRetryableExc e then
        let r := makeRequestAux server offset n (reqIdx + 1)
        (r.1, r.2.1, .request offset :: .sleepBackoff :: r.2.2)
      else (.error e, reqIdx + 1, [.request offset])

def makeRequest (server : Server) (offset reqIdx : Nat) :
    Except PyExc JiraResponse × Nat × List Event :=
  makeRequestAux server offset (MAX_RETRIES - 1) reqIdx

/-- Errors a modelled run can stop with.  `outOfFuel` is an artifact of
making the model total; Python's loops have no such bound. -/
inductive RunError where
  | exc (e : PyExc)
  | outOfFuel
deriving DecidableEq, Repr

/-- `JiraScraper.fetch_issues` (`scraper.py:68-86`): calls the decorated
`_make_request`; `except HTTPError` handles a caught 429 by sleeping the
fixed 60-second cooldown and re-issuing the same page request, and
re-raises any other `HTTPError`; other exceptions propagate uncaught. -/
def fetch_issues (server : Server) (offset : Nat) :
    Nat → Nat → Except RunError JiraResponse × Nat × List Event
  | 0, reqIdx => (.error .outOfFuel, reqIdx, [])
  | fuel + 1, reqIdx =>
    match makeRequest server offset reqIdx with
    | (.ok data, idx, evs) => (.ok data, idx, evs)
    | (.error (.httpError code), idx, evs) =>
      if code = 429 then
        let r := fetch_issues server offset fuel idx
        (r.1, r.2.1, evs ++ .sleepCooldown :: r.2.2)
      else (.error (.exc (.httpError code)), idx, evs)
    | (.error .timeout, idx, evs) => (.error (.exc .timeout), idx, evs)
    | (.error .connectionError, idx, evs) => (.error (.exc .connectionError), idx, evs)
    | (.error (.retryError e), idx, evs) => (.error (.exc (.retryError e)), idx, evs)

structure LoopOut where
  result : Except RunError Nat
  reqIdx : Nat
  store : Option JsonVal
  events : List Event

/-- The `while start_at < total_issues` loop of `scrape_all_issues`
(`scraper.py:123-153`): fetch the page at `startAt`; break on an empty
result set; otherwise write the batch file (numbered by the running
counter), advance `total_fetched`, `start_at` and `batch_number` by/to the
actual number of returned records, save a checkpoint, sleep the politeness
delay, and continue.  `total_issues` is fixed by the first response and
never re-read. -/
def scrapeLoop (server : Server) (pk now : String) (totalIssues : Nat) :
    Nat → Nat → Nat → Nat → Nat → Option JsonVal → LoopOut
  | 0, startAt, totalFetched, _, reqIdx, store =>
    if startAt < totalIssues then ⟨.error .outOfFuel, reqIdx, store, []⟩
    else ⟨.ok totalFetched, reqIdx, store, []⟩
  | fuel + 1, startAt, totalFetched, batchNumber, reqIdx, store =>
    if startAt < totalIssues then
      match fetch_issues server startAt (fuel + 1) reqIdx with
      | (.error e, idx, evs) => ⟨.error e, idx, store, evs⟩
      | (.ok resp, idx, evs) =>
        if resp.issues = [] then
          ⟨.ok totalFetched, idx, store, evs⟩
        else
          let fetched := resp.issues.length
          let startAt2 := startAt + fetched
          let totalFetched2 := totalFetched + fetched
          let cp : CheckpointData := ⟨startAt2, totalFetched2, totalIssues, now, pk⟩
          let store2 := save_checkpoint store (encodeCheckpoint cp)
          let rest := scrapeLoop server pk now totalIssues fuel startAt2 totalFetched2
              (batchNumber + 1) idx store2
          ⟨rest.result, rest.reqIdx, rest.store,
            evs ++ .saveBatch batchNumber fetched startAt :: .saveCheckpoint cp
                :: .sleepPoliteness :: rest.events⟩
    else ⟨.ok totalFetched, reqIdx, store, []⟩

structure RunResult where
  result : Except RunError Nat
  store : Option JsonVal
  events : List Event
  reqIdx : Nat

/-- `JiraScraper.scrape_all_issues` (`scraper.py:101-170`): read the resume
position, start `total_fetched` at it and the batch counter at
`start_at // MAX_RESULTS_PER_PAGE`, issue the total-count request at the
resume offset, then run the page loop.  An exception is re-raised
(`except Exception` only logs), leaving the store as the loop left it. -/
def scrape_all_issues (server : Server) (pk now : String) (fuel : Nat)
    (store0 : Option JsonVal) : RunResult :=
  let startAt := get_last_position store0
  let totalFetched := startAt
  let batchNumber := startAt / MAX_RESULTS_PER_PAGE
  match fetch_issues server startAt fuel 0 with
  | (.error e, idx, evs) => ⟨.error e, store0, evs, idx⟩
  | (.ok first, idx, evs) =>
    let totalIssues := first.total
    let out := scrapeLoop server pk now totalIssues fuel startAt totalFetched batchNumber
        idx store0
    ⟨out.result, out.store, evs ++ out.events, out.reqIdx⟩

/-! Trace projections. -/

def checkpointsOf (evs : List Event) : List CheckpointData :=
  evs.filterMap fun e =>
    match e with
    | .saveCheckpoint c => some c
    | _ => none

def checkpointOffsets (evs : List Event) : List Nat :=
  (checkpointsOf evs).map (·.last_start_at)

def batchTriples (evs : List Event) : List (Nat × Nat × Nat) :=
  evs.filterMap fun e =>
    match e with
    | .saveBatch b c off => some (b, c, off)
    | _ => none

def batchNumbersOf (evs : List Event) : List Nat :=
  (batchTriples evs).map (·.1)

def batchCountsOf (evs : List Event) : List Nat :=
  (batchTriples evs).map (·.2.1)

def requestCount (evs : List Event) : Nat :=
  evs.countP fun e =>
    match e with
    | .request _ => true
    | _ => false

def backoffCount (evs : List Event) : Nat :=
  evs.countP fun e =>
    match e with
    | .sleepBackoff => true
    | _ => false

def cooldownCount (evs : List Event) : Nat :=
  evs.countP fun e =>
    match e with
    | .sleepCooldown => true
    | _ => false

/-- Batch-file writes and checkpoint writes, in trace order. -/
inductive BCEvent where
  | savedBatch (b c off : Nat)
  | savedCkpt (c : CheckpointData)
deriving DecidableEq, Repr

def bcOf (evs : List Event) : List BCEvent :=
  evs.filterMap fun e =>
    match e with
    | .saveBatch b c off => some (.savedBatch b c off)
    | .saveCheckpoint c => some (.savedCkpt c)
    | _ => none

/-- Holds when the durable writes come in batch/checkpoint pairs: each
checkpoint write is immediately preceded by its page's batch write. -/
def bcAlternates : List BCEvent → Bool
  | [] => true
  | .savedBatch _ _ _ :: .savedCkpt _ :: rest => bcAlternates rest
  | _ => false

/-- True exactly on a run outcome that is an exhausted-retries wrapper
around a transient transport exception. -/
def retryExhaustedTransport : Except RunError Nat → Bool
  | .error (.exc (.retryError .timeout)) => true
  | .error (.exc (.retryError .connectionError)) => true
  | _ => false

/-- True exactly on transient transport exceptions. -/
def isTransportExc : PyExc → Bool
  | .timeout => true
  | .connectionError => true
  | _ => false

def isStoreEvent : Event → Bool
  | .saveBatch _ _ _ => true
  | .saveCheckpoint _ => true
  | _ => false

/-! `main.py`.  The pipeline body run inside `main`'s `try` block is
abstracted by how it terminates: normal completion, a `KeyboardInterrupt`
reaching `main`, or another exception reaching `main`. -/

inductive PipelineOutcome where
  | completed
  | interrupted
  | raised
deriving DecidableEq, Repr

/-- Exit code of `main` (`main.py:143-175`): a flag conflict calls
`sys.exit(1)` (a `SystemExit`, caught by neither handler); otherwise the
selected pipeline body runs; `except KeyboardInterrupt` exits 0,
`except Exception` exits 1, and normal completion ends the process with 0. -/
def mainExitCode (scrapeOnly transformOnly : Bool) (body : PipelineOutcome) : Nat :=
  if scrapeOnly && transformOnly then 1
  else
    match body with
    | .completed => 0
    | .interrupted => 0
    | .raised => 1

/-! Concrete endpoints and checkpoints used in the concrete theorems. -/

/-- An endpoint whose every response has HTTP status 500. -/
def httpErrorServer : Server := fun _ => .status 500

/-- An endpoint whose every response has HTTP status 429. -/
def rateLimitServer : Server := fun _ => .status 429

/-- An endpoint that always times out. -/
def timeoutServer : Server := fun _ => .timeout

/-- Total 5, pages of 2, 2 and 1 records (request 0 is the total-count
request; request 1 re-fetches the first page inside the loop). -/
def smallRunServer : Server := fun i =>
  match i with
  | 0 => .ok ⟨5, [0, 1]⟩
  | 1 => .ok ⟨5, [0, 1]⟩
  | 2 => .ok ⟨5, [2, 3]⟩
  | 3 => .ok ⟨5, [4]⟩
  | _ => .ok ⟨5, []⟩

/-- Total 250; the page at offset 100 is short (30 records) although it is
not the last page of the run. -/
def shortPageServer : Server := fun i =>
  match i with
  | 0 => .ok ⟨250, List.replicate 100 0⟩
  | 1 => .ok ⟨250, List.replicate 100 0⟩
  | 2 => .ok ⟨250, List.replicate 30 0⟩
  | 3 => .ok ⟨250, List.replicate 100 0⟩
  | _ => .ok ⟨250, List.replicate 20 0⟩

/-- An endpoint that reports 250 total issues but returns an empty result
set on every page request. -/
def emptyPageServer : Server := fun _ => .ok ⟨250, []⟩

/-- The checkpoint a run of a 250-issue project saves at offset 200. -/
def ckpt200 : CheckpointData := ⟨200, 200, 250, "t", "X"⟩

/-- An endpoint that reports 5 total issues and no further records. -/
def total5Server : Server := fun _ => .ok ⟨5, []⟩

/-- A checkpoint recording a finished 5-issue run. -/
def ckpt5 : CheckpointData := ⟨5, 5, 5, "t", "X"⟩




theorem checkpointsOf_eq_nil {evs : List Event}
    (h : ∀ e ∈ evs, isStoreEvent e = false) : checkpointsOf evs = [] := by
  rw [checkpointsOf, List.filterMap_eq_nil_iff]
  intro e he
  have hs := h e he
  cases e <;> simp_all [isStoreEvent]

theorem batchTriples_eq_nil {evs : List Event}
    (h : ∀ e ∈ evs, isStoreEvent e = false) : batchTriples evs = [] := by
  rw [batchTriples, List.filterMap_eq_nil_iff]
  intro e he
  have hs := h e he
  cases e <;> simp_all [isStoreEvent]

theorem bcOf_eq_nil {evs : List Event}
    (h : ∀ e ∈ evs, isStoreEvent e = false) : bcOf evs = [] := by
  rw [bcOf, List.filterMap_eq_nil_iff]
  intro e he
  have hs := h e he
  cases e <;> simp_all [isStoreEvent]

theorem makeRequestAux_noStore (server : Server) (offset : Nat) :
    ∀ n reqIdx, ∀ e ∈ (makeRequestAux server offset n reqIdx).2.2, isStoreEvent e = false := by
  intro n
  induction n with
  | zero =>
    intro reqIdx e he
    rw [makeRequestAux] at he
    cases h : attemptOnce server reqIdx with
    | ok b => rw [h] at he; simp at he; subst he; rfl
    | error err =>
      rw [h] at he
      by_cases hr : isRetryableExc err = true <;> simp [hr] at he <;> subst he <;> rfl
  | succ n ih =>
    intro reqIdx e he
    rw [makeRequestAux] at he
    cases h : attemptOnce server reqIdx with
    | ok b => rw [h] at he; simp at he; subst he; rfl
    | error err =>
      rw [h] at he
      by_cases hr : isRetryableExc err = true
      · simp [hr] at he
        rcases he with he | he | he
        · subst he; rfl
        · subst he; rfl
        · exact ih _ e he
      · simp [hr] at he; subst he; rfl

theorem fetch_issues_noStore (server : Server) (offset : Nat) :
    ∀ fuel reqIdx, ∀ e ∈ (fetch_issues server offset fuel reqIdx).2.2, isStoreEvent e = false := by
  intro fuel
  induction fuel with
  | zero => intro reqIdx e he; simp [fetch_issues] at he
  | succ n ih =>
    intro reqIdx e he
    rw [fetch_issues] at he
    rcases hm : makeRequest server offset reqIdx with ⟨res, idx, evs⟩
    rw [hm] at he
    have hevs : ∀ e ∈ evs, isStoreEvent e = false := by
      intro e' he'
      have hh := makeRequestAux_noStore server offset (MAX_RETRIES - 1) reqIdx e'
      rw [makeRequest] at hm
      rw [hm] at hh
      exact hh he'
    cases res with
    | ok data => simp at he; exact hevs e he
    | error err =>
      cases err with
      | httpError code =>
        by_cases hc : code = 429
        · simp [hc] at he
          rcases he with he | he | he
          · exact hevs e he
          · subst he; rfl
          · exact ih _ e he
        · simp [hc] at he; exact hevs e he
      | timeout => simp at he; exact hevs e he
      | connectionError => simp at he; exact hevs e he
      | retryError e2 => simp at he; exact hevs e he





theorem scanl_head_tail (b : Nat) (l : List Nat) :
    List.scanl (· + ·) b l = b :: (List.scanl (· + ·) b l).tail := by
  cases l with
  | nil => rfl
  | cons a l => simp [List.scanl_cons]

theorem chain'_lt_scanl (l : List Nat) :
    ∀ b : Nat, (∀ c ∈ l, 0 < c) → List.Chain' (· < ·) (List.scanl (· + ·) b l) := by
  induction l with
  | nil => intro b _; simp [List.scanl]
  | cons a l ih =>
    intro b h
    rw [List.scanl_cons, List.singleton_append, scanl_head_tail (b + a) l, List.chain'_cons]
    constructor
    · have : 0 < a := h a (by simp)
      omega
    · rw [← scanl_head_tail (b + a) l]
      exact ih (b + a) fun c hc => h c (List.mem_cons_of_mem _ hc)

@[simp] theorem checkpointsOf_nil : checkpointsOf [] = [] := rfl

@[simp] theorem checkpointsOf_append (l1 l2 : List Event) :
    checkpointsOf (l1 ++ l2) = checkpointsOf l1 ++ checkpointsOf l2 :=
  List.filterMap_append l1 l2 _

@[simp] theorem checkpointsOf_cons_batch (b c off : Nat) (l : List Event) :
    checkpointsOf (.saveBatch b c off :: l) = checkpointsOf l := rfl

@[simp] theorem checkpointsOf_cons_ckpt (c : CheckpointData) (l : List Event) :
    checkpointsOf (.saveCheckpoint c :: l) = c :: checkpointsOf l := rfl

@[simp] theorem checkpointsOf_cons_politeness (l : List Event) :
    checkpointsOf (.sleepPoliteness :: l) = checkpointsOf l := rfl

@[simp] theorem batchTriples_nil : batchTriples [] = [] := rfl

@[simp] theorem batchTriples_append (l1 l2 : List Event) :
    batchTriples (l1 ++ l2) = batchTriples l1 ++ batchTriples l2 :=
  List.filterMap_append l1 l2 _

@[simp] theorem batchTriples_cons_batch (b c off : Nat) (l : List Event) :
    batchTriples (.saveBatch b c off :: l) = (b, c, off) :: batchTriples l := rfl

@[simp] theorem batchTriples_cons_ckpt (c : CheckpointData) (l : List Event) :
    batchTriples (.saveCheckpoint c :: l) = batchTriples l := rfl

@[simp] theorem batchTriples_cons_politeness (l : List Event) :
    batchTriples (.sleepPoliteness :: l) = batchTriples l := rfl

@[simp] theorem bcOf_nil : bcOf [] = [] := rfl

@[simp] theorem bcOf_append (l1 l2 : List Event) :
    bcOf (l1 ++ l2) = bcOf l1 ++ bcOf l2 :=
  List.filterMap_append l1 l2 _

@[simp] theorem bcOf_cons_batch (b c off : Nat) (l : List Event) :
    bcOf (.saveBatch b c off :: l) = .savedBatch b c off :: bcOf l := rfl

@[simp] theorem bcOf_cons_ckpt (c : CheckpointData) (l : List Event) :
    bcOf (.saveCheckpoint c :: l) = .savedCkpt c :: bcOf l := rfl

@[simp] theorem bcOf_cons_politeness (l : List Event) :
    bcOf (.sleepPoliteness :: l) = bcOf l := rfl

theorem scrapeLoop_spec (server : Server) (pk now : String) (T : Nat) :
    ∀ fuel s bn idx st,
      (∀ c ∈ checkpointsOf (scrapeLoop server pk now T fuel s s bn idx st).events,
        c.last_start_at = c.total_fetched) ∧
      bcAlternates (bcOf (scrapeLoop server pk now T fuel s s bn idx st).events) = true ∧
      checkpointOffsets (scrapeLoop server pk now T fuel s s bn idx st).events =
        (List.scanl (· + ·) s
          (batchCountsOf (scrapeLoop server pk now T fuel s s bn idx st).events)).tail ∧
      batchNumbersOf (scrapeLoop server pk now T fuel s s bn idx st).events =
        List.range' bn
          (batchCountsOf (scrapeLoop server pk now T fuel s s bn idx st).events).length ∧
      (∀ c ∈ batchCountsOf (scrapeLoop server pk now T fuel s s bn idx st).events, 0 < c) ∧
      (∀ n, (scrapeLoop server pk now T fuel s s bn idx st).result = .ok n →
        n = s + (batchCountsOf (scrapeLoop server pk now T fuel s s bn idx st).events).sum) := by
  intro fuel
  induction fuel with
  | zero =>
    intro s bn idx st
    by_cases h : s < T <;>
      simp [scrapeLoop, h, checkpointsOf, bcOf, bcAlternates, checkpointOffsets,
        batchNumbersOf, batchCountsOf, batchTriples, List.scanl, List.range']
  | succ fuel ih =>
    intro s bn idx st
    by_cases h : s < T
    · rw [scrapeLoop, if_pos h]
      split
      next e idx2 evs heq =>
        have hevs : ∀ e ∈ evs, isStoreEvent e = false := by
          intro e2 he2
          have hh := fetch_issues_noStore server s (fuel + 1) idx e2
          rw [heq] at hh
          exact hh he2
        simp [checkpointsOf_eq_nil hevs, checkpointOffsets, batchNumbersOf, batchCountsOf,
          batchTriples_eq_nil hevs, bcOf_eq_nil hevs, bcAlternates, List.scanl, List.range']
      next resp idx2 evs heq =>
        have hevs : ∀ e ∈ evs, isStoreEvent e = false := by
          intro e2 he2
          have hh := fetch_issues_noStore server s (fuel + 1) idx e2
          rw [heq] at hh
          exact hh he2
        by_cases he : resp.issues = []
        · rw [if_pos he]
          simp [checkpointsOf_eq_nil hevs, checkpointOffsets, batchNumbersOf, batchCountsOf,
            batchTriples_eq_nil hevs, bcOf_eq_nil hevs, bcAlternates, List.scanl, List.range']
        · rw [if_neg he]
          dsimp only
          obtain ⟨ih1, ih2, ih3, ih4, ih5, ih6⟩ := ih (s + resp.issues.length) (bn + 1) idx2
            (save_checkpoint st (encodeCheckpoint
              ⟨s + resp.issues.length, s + resp.issues.length, T, now, pk⟩))
          set rest := scrapeLoop server pk now T fuel (s + resp.issues.length)
            (s + resp.issues.length) (bn + 1) idx2
            (save_checkpoint st (encodeCheckpoint
              ⟨s + resp.issues.length, s + resp.issues.length, T, now, pk⟩)) with hrest
          have hlen : 0 < resp.issues.length := List.length_pos.mpr he
          have hcp := checkpointsOf_eq_nil hevs
          have hbt := batchTriples_eq_nil hevs
          have hbc := bcOf_eq_nil hevs
          refine ⟨?_, ?_, ?_, ?_, ?_, ?_⟩
          · intro c hc
            simp only [checkpointsOf_append, hcp, List.nil_append,
              checkpointsOf_cons_batch, checkpointsOf_cons_ckpt,
              checkpointsOf_cons_politeness, List.mem_cons] at hc
            rcases hc with rfl | hc
            · rfl
            · exact ih1 c hc
          · simp only [bcOf_append, hbc, List.nil_append, bcOf_cons_batch, bcOf_cons_ckpt,
              bcOf_cons_politeness, bcAlternates]
            exact ih2
          · simp only [checkpointOffsets, batchCountsOf, checkpointsOf_append, hcp,
              List.nil_append, checkpointsOf_cons_batch, checkpointsOf_cons_ckpt,
              checkpointsOf_cons_politeness, batchTriples_append, hbt,
              batchTriples_cons_batch, batchTriples_cons_ckpt, batchTriples_cons_politeness,
              List.map_cons, List.scanl_cons, List.singleton_append, List.tail_cons]
            rw [scanl_head_tail (s + resp.issues.length)]
            simp only [checkpointOffsets, batchCountsOf] at ih3
            rw [ih3]
          · simp only [batchNumbersOf, batchCountsOf, batchTriples_append, hbt,
              List.nil_append, batchTriples_cons_batch, batchTriples_cons_ckpt,
              batchTriples_cons_politeness, List.map_cons, List.length_cons]
            rw [List.range'_succ]
            simp only [batchNumbersOf, batchCountsOf] at ih4
            rw [ih4]
          · intro c hc
            simp only [batchCountsOf, batchTriples_append, hbt, List.nil_append,
              batchTriples_cons_batch, batchTriples_cons_ckpt, batchTriples_cons_politeness,
              List.map_cons, List.mem_cons] at hc
            rcases hc with rfl | hc
            · exact hlen
            · exact ih5 c hc
          · intro n hn
            have h6 := ih6 n hn
            simp only [batchCountsOf] at h6
            simp only [batchCountsOf, batchTriples_append, hbt, List.nil_append,
              batchTriples_cons_batch, batchTriples_cons_ckpt, batchTriples_cons_politeness,
              List.map_cons, List.sum_cons]
            omega
    · rw [scrapeLoop, if_neg h]
      simp [checkpointsOf, bcOf, bcAlternates, checkpointOffsets,
        batchNumbersOf, batchCountsOf, batchTriples, List.scanl, List.range']


theorem makeRequestAux_ok {server : Server} {reqIdx : Nat} {b : JiraResponse}
    (h : server reqIdx = .ok b) (offset : Nat) :
    ∀ n, makeRequestAux server offset n reqIdx = (.ok b, reqIdx + 1, [.request offset]) := by
  intro n
  cases n <;> simp [makeRequestAux, attemptOnce, h]

theorem get_last_position_encode (c : CheckpointData) :
    get_last_position (some (encodeCheckpoint c)) = c.last_start_at := rfl

theorem scrape_spec (server : Server) (pk now : String) (fuel : Nat)
    (store0 : Option JsonVal) :
    (∀ c ∈ checkpointsOf (scrape_all_issues server pk now fuel store0).events,
      c.last_start_at = c.total_fetched) ∧
    bcAlternates (bcOf (scrape_all_issues server pk now fuel store0).events) = true ∧
    checkpointOffsets (scrape_all_issues server pk now fuel store0).events =
      (List.scanl (· + ·) (get_last_position store0)
        (batchCountsOf (scrape_all_issues server pk now fuel store0).events)).tail ∧
    batchNumbersOf (scrape_all_issues server pk now fuel store0).events =
      List.range' (get_last_position store0 / MAX_RESULTS_PER_PAGE)
        (batchCountsOf (scrape_all_issues server pk now fuel store0).events).length ∧
    (∀ c ∈ batchCountsOf (scrape_all_issues server pk now fuel store0).events, 0 < c) ∧
    (∀ n, (scrape_all_issues server pk now fuel store0).result = .ok n →
      n = get_last_position store0 +
        (batchCountsOf (scrape_all_issues server pk now fuel store0).events).sum) := by
  rw [scrape_all_issues]
  split
  next e idx evs heq =>
    have hevs : ∀ e ∈ evs, isStoreEvent e = false := by
      intro e2 he2
      have hh := fetch_issues_noStore server (get_last_position store0) fuel 0 e2
      rw [heq] at hh
      exact hh he2
    simp [checkpointsOf_eq_nil hevs, checkpointOffsets, batchNumbersOf, batchCountsOf,
      batchTriples_eq_nil hevs, bcOf_eq_nil hevs, bcAlternates, List.scanl, List.range']
  next first idx evs heq =>
    have hevs : ∀ e ∈ evs, isStoreEvent e = false := by
      intro e2 he2
      have hh := fetch_issues_noStore server (get_last_position store0) fuel 0 e2
      rw [heq] at hh
      exact hh he2
    have hcp := checkpointsOf_eq_nil hevs
    have hbt := batchTriples_eq_nil hevs
    have hbc := bcOf_eq_nil hevs
    obtain ⟨h1, h2, h3, h4, h5, h6⟩ := scrapeLoop_spec server pk now first.total fuel
      (get_last_position store0) (get_last_position store0 / MAX_RESULTS_PER_PAGE) idx store0
    refine ⟨?_, ?_, ?_, ?_, ?_, ?_⟩
    · intro c hc
      simp only [checkpointsOf_append, hcp, List.nil_append] at hc
      exact h1 c hc
    · simp only [bcOf_append, hbc, List.nil_append]
      exact h2
    · simp only [checkpointOffsets, checkpointsOf_append, hcp, List.nil_append,
        batchCountsOf, batchTriples_append, hbt]
      simp only [checkpointOffsets, batchCountsOf] at h3
      exact h3
    · simp only [batchNumbersOf, batchCountsOf, batchTriples_append, hbt, List.nil_append]
      simp only [batchNumbersOf, batchCountsOf] at h4
      exact h4
    · intro c hc
      simp only [batchCountsOf, batchTriples_append, hbt, List.nil_append] at hc
      exact h5 c hc
    · intro n hn
      simp only [batchCountsOf, batchTriples_append, hbt, List.nil_append]
      simp only [batchCountsOf] at h6
      exact h6 n hn

theorem makeRequestAux_transport {server : Server}
    (hs : ∀ i, server i = .timeout ∨ server i = .connectionError) (offset : Nat) :
    ∀ n reqIdx,
      (∃ e, isTransportExc e = true ∧
        (makeRequestAux server offset n reqIdx).1 = .error (.retryError e)) ∧
      requestCount (makeRequestAux server offset n reqIdx).2.2 = n + 1 ∧
      backoffCount (makeRequestAux server offset n reqIdx).2.2 = n := by
  intro n
  induction n with
  | zero =>
    intro reqIdx
    rcases hs reqIdx with h | h
    · refine ⟨⟨.timeout, rfl, ?_⟩, ?_, ?_⟩ <;>
        simp [makeRequestAux, attemptOnce, h, isRetryableExc, isRequestException,
          isTimeoutExc, isConnectionErrorExc, requestCount, backoffCount, List.countP_cons]
    · refine ⟨⟨.connectionError, rfl, ?_⟩, ?_, ?_⟩ <;>
        simp [makeRequestAux, attemptOnce, h, isRetryableExc, isRequestException,
          isTimeoutExc, isConnectionErrorExc, requestCount, backoffCount, List.countP_cons]
  | succ n ih =>
    intro reqIdx
    obtain ⟨⟨e, he, hres⟩, hreq, hback⟩ := ih (reqIdx + 1)
    rcases hs reqIdx with h | h
    · refine ⟨⟨e, he, ?_⟩, ?_, ?_⟩
      · simpa [makeRequestAux, attemptOnce, h, isRetryableExc, isRequestException,
          isTimeoutExc, isConnectionErrorExc] using hres
      · simp only [requestCount] at hreq
        simp [makeRequestAux, attemptOnce, h, isRetryableExc, isRequestException,
          isTimeoutExc, isConnectionErrorExc, requestCount, List.countP_cons, hreq]
      · simp only [backoffCount] at hback
        simp [makeRequestAux, attemptOnce, h, isRetryableExc, isRequestException,
          isTimeoutExc, isConnectionErrorExc, backoffCount, List.countP_cons, hback]
    · refine ⟨⟨e, he, ?_⟩, ?_, ?_⟩
      · simpa [makeRequestAux, attemptOnce, h, isRetryableExc, isRequestException,
          isTimeoutExc, isConnectionErrorExc] using hres
      · simp only [requestCount] at hreq
        simp [makeRequestAux, attemptOnce, h, isRetryableExc, isRequestException,
          isTimeoutExc, isConnectionErrorExc, requestCount, List.countP_cons, hreq]
      · simp only [backoffCount] at hback
        simp [makeRequestAux, attemptOnce, h, isRetryableExc, isRequestException,
          isTimeoutExc, isConnectionErrorExc, backoffCount, List.countP_cons, hback]


/-- C1: contrary to the claim, a page request whose response has a non-2xx
status other than 429 IS retried by the exponential-backoff policy:
`HTTPError` is a `RequestException` subclass, so the tenacity predicate
accepts it; the run makes `MAX_RETRIES` attempts with backoff sleeps and
then aborts with `tenacity.RetryError` wrapping the `HTTPError`.  The
prior checkpoint (here: none) is left intact. -/
theorem c1_non2xx_is_retried :
    (scrape_all_issues httpErrorServer "X" "t" 1 none).result =
      .error (.exc (.retryError (.httpError 500))) ∧
    requestCount (scrape_all_issues httpErrorServer "X" "t" 1 none).events = MAX_RETRIES ∧
    backoffCount (scrape_all_issues httpErrorServer "X" "t" 1 none).events = MAX_RETRIES - 1 ∧
    (scrape_all_issues httpErrorServer "X" "t" 1 none).store = none ∧
    checkpointsOf (scrape_all_issues httpErrorServer "X" "t" 1 none).events = [] :=
  ⟨rfl, rfl, rfl, rfl, rfl⟩

/-- C2: contrary to the claim, HTTP 429 responses are consumed by the
exponential-backoff policy (counting against the attempt budget) and the
run aborts with `RetryError` after `MAX_RETRIES` attempts; the fixed
60-second cooldown (`sleepCooldown`) never happens, because the
`except HTTPError` handler cannot catch the `RetryError` tenacity raises. -/
theorem c2_rate_limit_consumes_budget :
    (scrape_all_issues rateLimitServer "X" "t" 3 none).result =
      .error (.exc (.retryError (.httpError 429))) ∧
    requestCount (scrape_all_issues rateLimitServer "X" "t" 3 none).events = MAX_RETRIES ∧
    backoffCount (scrape_all_issues rateLimitServer "X" "t" 3 none).events = MAX_RETRIES - 1 ∧
    cooldownCount (scrape_all_issues rateLimitServer "X" "t" 3 none).events = 0 ∧
    (scrape_all_issues rateLimitServer "X" "t" 3 none).store = none :=
  ⟨rfl, rfl, rfl, rfl, rfl⟩

/-- C3: against an endpoint that always raises a transient transport error
(timeout or connection failure), the page request is retried with
exponential backoff up to `MAX_RETRIES` attempts, the run fails with a
retry-exhausted error wrapping a transport exception, no checkpoint is
written and the store keeps its pre-call value. -/
theorem c3_transport_retry_exhaustion (server : Server) (pk now : String) (fuel : Nat)
    (store0 : Option JsonVal)
    (hs : ∀ i, server i = .timeout ∨ server i = .connectionError) :
    retryExhaustedTransport (scrape_all_issues server pk now (fuel + 1) store0).result = true ∧
    (scrape_all_issues server pk now (fuel + 1) store0).store = store0 ∧
    requestCount (scrape_all_issues server pk now (fuel + 1) store0).events = MAX_RETRIES ∧
    backoffCount (scrape_all_issues server pk now (fuel + 1) store0).events = MAX_RETRIES - 1 ∧
    checkpointsOf (scrape_all_issues server pk now (fuel + 1) store0).events = [] := by
  obtain ⟨⟨e, he, hres⟩, hreq, hback⟩ :=
    makeRequestAux_transport hs (get_last_position store0) (MAX_RETRIES - 1) 0
  rcases hm : makeRequestAux server (get_last_position store0) (MAX_RETRIES - 1) 0
    with ⟨res, idx, evs⟩
  rw [hm] at hres hreq hback
  have hres2 : res = .error (.retryError e) := hres
  have hreq2 : requestCount evs = MAX_RETRIES - 1 + 1 := hreq
  have hback2 : backoffCount evs = MAX_RETRIES - 1 := hback
  subst hres2
  have hevs : ∀ e2 ∈ evs, isStoreEvent e2 = false := by
    intro e2 he2
    have hh := makeRequestAux_noStore server (get_last_position store0) (MAX_RETRIES - 1) 0 e2
    rw [hm] at hh
    exact hh he2
  have hfetch : fetch_issues server (get_last_position store0) (fuel + 1) 0 =
      (.error (.exc (.retryError e)), idx, evs) := by
    rw [fetch_issues, makeRequest, hm]
  rw [scrape_all_issues, hfetch]
  refine ⟨?_, rfl, ?_, ?_, ?_⟩
  · cases e <;> simp_all [isTransportExc, retryExhaustedTransport]
  · simpa [MAX_RETRIES] using hreq2
  · exact hback2
  · exact checkpointsOf_eq_nil hevs

/-- Witness for C3 at a concrete always-timeout endpoint. -/
theorem c3_transport_retry_exhaustion_witness :
    retryExhaustedTransport (scrape_all_issues timeoutServer "X" "t" 1 none).result = true ∧
    (scrape_all_issues timeoutServer "X" "t" 1 none).store = none ∧
    requestCount (scrape_all_issues timeoutServer "X" "t" 1 none).events = MAX_RETRIES ∧
    backoffCount (scrape_all_issues timeoutServer "X" "t" 1 none).events = MAX_RETRIES - 1 ∧
    checkpointsOf (scrape_all_issues timeoutServer "X" "t" 1 none).events = [] :=
  c3_transport_retry_exhaustion timeoutServer "X" "t" 0 none (fun _ => Or.inl rfl)

/-- C4: in every checkpoint the loop writes, the stored offset equals the
stored cumulative fetched count, and the durable writes come in
batch-then-checkpoint pairs: a checkpoint is written only after its page
has been fetched and persisted as a batch file. -/
theorem c4_checkpoint_invariant (server : Server) (pk now : String) (fuel : Nat)
    (store0 : Option JsonVal) :
    (∀ c ∈ checkpointsOf (scrape_all_issues server pk now fuel store0).events,
      c.last_start_at = c.total_fetched) ∧
    bcAlternates (bcOf (scrape_all_issues server pk now fuel store0).events) = true :=
  ⟨(scrape_spec server pk now fuel store0).1, (scrape_spec server pk now fuel store0).2.1⟩

/-- Witness for C4 on a concrete three-page run. -/
theorem c4_checkpoint_invariant_witness :
    (⟨2, 2, 5, "t", "X"⟩ : CheckpointData).last_start_at =
      (⟨2, 2, 5, "t", "X"⟩ : CheckpointData).total_fetched ∧
    bcAlternates (bcOf (scrape_all_issues smallRunServer "X" "t" 9 none).events) = true :=
  ⟨(c4_checkpoint_invariant smallRunServer "X" "t" 9 none).1 ⟨2, 2, 5, "t", "X"⟩ (by decide),
   (c4_checkpoint_invariant smallRunServer "X" "t" 9 none).2⟩


/-- C5: across a successful full run (no checkpoint present at start), the
offsets recorded in successive checkpoints are strictly increasing and
form exactly the partial sums of the numbers of records actually returned
per page (the cumulative fetched count), not multiples of the nominal
page size. -/
theorem c5_offsets_strictly_increasing (server : Server) (pk now : String) (fuel n : Nat)
    (hok : (scrape_all_issues server pk now fuel none).result = .ok n) :
    List.Chain' (· < ·)
      (checkpointOffsets (scrape_all_issues server pk now fuel none).events) ∧
    checkpointOffsets (scrape_all_issues server pk now fuel none).events =
      (List.scanl (· + ·) 0
        (batchCountsOf (scrape_all_issues server pk now fuel none).events)).tail := by
  obtain ⟨-, -, h3, -, h5, -⟩ := scrape_spec server pk now fuel none
  have h0 : get_last_position none = 0 := rfl
  rw [h0] at h3
  refine ⟨?_, h3⟩
  rw [h3]
  exact (chain'_lt_scanl _ 0 h5).tail

/-- Witness for C5 on a concrete successful run with pages of 2, 2, 1. -/
theorem c5_offsets_strictly_increasing_witness :
    List.Chain' (· < ·)
      (checkpointOffsets (scrape_all_issues smallRunServer "X" "t" 9 none).events) ∧
    checkpointOffsets (scrape_all_issues smallRunServer "X" "t" 9 none).events =
      (List.scanl (· + ·) 0
        (batchCountsOf (scrape_all_issues smallRunServer "X" "t" 9 none).events)).tail :=
  c5_offsets_strictly_increasing smallRunServer "X" "t" 9 5 rfl

/-- C6 counterexample: on a run whose page at offset 100 returns only 30
records, the batch fetched at offset 130 is written with batch number 2,
while 130 / pageSize = 1: the number written is NOT derived from the
offset at which the page was fetched, but from an independent counter. -/
theorem c6_batch_number_not_offset_div :
    Event.saveBatch 2 100 130 ∈ (scrape_all_issues shortPageServer "X" "t" 10 none).events ∧
    2 ≠ 130 / MAX_RESULTS_PER_PAGE := by
  refine ⟨by decide, by decide⟩

/-- C6 (amended): batch numbers within a run are consecutive, starting at
`priorOffset / pageSize`; hence the first batch file a resumed run writes
is the one numbered `resumedOffset / pageSize` and no batch file with a
lower number is ever rewritten. -/
theorem c6_batch_numbers_consecutive (server : Server) (pk now : String) (fuel : Nat)
    (store0 : Option JsonVal) :
    batchNumbersOf (scrape_all_issues server pk now fuel store0).events =
      List.range' (get_last_position store0 / MAX_RESULTS_PER_PAGE)
        (batchNumbersOf (scrape_all_issues server pk now fuel store0).events).length ∧
    ∀ b ∈ batchNumbersOf (scrape_all_issues server pk now fuel store0).events,
      get_last_position store0 / MAX_RESULTS_PER_PAGE ≤ b := by
  obtain ⟨-, -, -, h4, -, -⟩ := scrape_spec server pk now fuel store0
  have hlen : (batchNumbersOf (scrape_all_issues server pk now fuel store0).events).length =
      (batchCountsOf (scrape_all_issues server pk now fuel store0).events).length := by
    simp [batchNumbersOf, batchCountsOf]
  refine ⟨by rw [hlen]; exact h4, ?_⟩
  intro b hb
  rw [h4] at hb
  exact (List.mem_range'_1.mp hb).1

/-- Witness for C6 (amended) on a resumed run. -/
theorem c6_batch_numbers_consecutive_witness :
    batchNumbersOf (scrape_all_issues shortPageServer "X" "t" 10 none).events =
      List.range' (get_last_position none / MAX_RESULTS_PER_PAGE)
        (batchNumbersOf (scrape_all_issues shortPageServer "X" "t" 10 none).events).length ∧
    0 ≤ 2 :=
  ⟨(c6_batch_numbers_consecutive shortPageServer "X" "t" 10 none).1,
   (c6_batch_numbers_consecutive shortPageServer "X" "t" 10 none).2 2 (by decide)⟩

/-- C7: when a page response carries an empty record list while the current
offset is still below the observed total, the loop returns the running
total without error, without advancing the offset, and without touching
the checkpoint store. -/
theorem c7_empty_page_stops (server : Server) (pk now : String)
    (T fuel s tf bn idx : Nat) (store : Option JsonVal) (resp : JiraResponse)
    (idx2 : Nat) (evs : List Event)
    (hlt : s < T)
    (hfetch : fetch_issues server s (fuel + 1) idx = (.ok resp, idx2, evs))
    (hempty : resp.issues = []) :
    scrapeLoop server pk now T (fuel + 1) s tf bn idx store = ⟨.ok tf, idx2, store, evs⟩ := by
  rw [scrapeLoop, if_pos hlt]
  split
  next e i2 es heq =>
    rw [hfetch] at heq
    simp at heq
  next r2 i2 es heq =>
    rw [hfetch] at heq
    obtain ⟨hr, hi, hes⟩ : resp = r2 ∧ idx2 = i2 ∧ evs = es := by simpa using heq
    subst hr
    subst hi
    subst hes
    rw [if_pos hempty]

/-- Witness for C7: total 250, resumed state at offset 200, empty page. -/
theorem c7_empty_page_stops_witness :
    scrapeLoop emptyPageServer "X" "t" 250 5 200 200 2 3
        (some (encodeCheckpoint ckpt200)) =
      ⟨.ok 200, 4, some (encodeCheckpoint ckpt200), [.request 200]⟩ :=
  c7_empty_page_stops emptyPageServer "X" "t" 250 4 200 200 2 3
    (some (encodeCheckpoint ckpt200)) ⟨250, []⟩ 4 [.request 200] (by decide) rfl rfl


/-- C8: on the (uncorrupted) per-source-key store, load after save returns
exactly the document saved, the parsed document decodes back to the
checkpoint structurally equal to the one encoded, and saving the same data
twice is an idempotent overwrite whose load result is identical both
times. -/
theorem c8_save_load_roundtrip (store : Option JsonVal) (c : CheckpointData) :
    load_checkpoint (save_checkpoint store (encodeCheckpoint c)) = some (encodeCheckpoint c) ∧
    decodeCheckpoint (encodeCheckpoint c) = some c ∧
    save_checkpoint (save_checkpoint store (encodeCheckpoint c)) (encodeCheckpoint c) =
      save_checkpoint store (encodeCheckpoint c) ∧
    load_checkpoint (save_checkpoint (save_checkpoint store (encodeCheckpoint c))
        (encodeCheckpoint c)) =
      load_checkpoint (save_checkpoint store (encodeCheckpoint c)) :=
  ⟨rfl, rfl, rfl, rfl⟩

/-- C9: the CLI exits 1 when both `--scrape-only` and `--transform-only`
are given (whatever the pipeline would have done), and otherwise exits 0
on completion, 0 on user interrupt, and 1 on an unrecoverable pipeline
error. -/
theorem c9_exit_codes :
    (∀ o, mainExitCode true true o = 1) ∧
    (∀ s t : Bool, (s && t) = false →
      mainExitCode s t .completed = 0 ∧ mainExitCode s t .interrupted = 0 ∧
      mainExitCode s t .raised = 1) := by
  constructor
  · intro o
    rfl
  · intro s t h
    refine ⟨?_, ?_, ?_⟩ <;> simp [mainExitCode, h]

/-- Witness for C9 at concrete flag combinations. -/
theorem c9_exit_codes_witness :
    mainExitCode true true .completed = 1 ∧ mainExitCode false false .interrupted = 0 :=
  ⟨c9_exit_codes.1 .completed, (c9_exit_codes.2 false false rfl).2.1⟩

/-- C10: a run resumed from a checkpoint at offset k returns k plus the
number of records fetched in this run; and when the remote total is
already ≤ k, the run issues exactly one HTTP request (the total-count
request), writes no batch and no checkpoint, and returns k. -/
theorem c10_resume_counts (server : Server) (pk now : String) (fuel : Nat)
    (c : CheckpointData) (resp : JiraResponse) :
    (∀ n, (scrape_all_issues server pk now (fuel + 1)
        (some (encodeCheckpoint c))).result = .ok n →
      n = c.last_start_at +
        (batchCountsOf (scrape_all_issues server pk now (fuel + 1)
          (some (encodeCheckpoint c))).events).sum) ∧
    (server 0 = .ok resp → resp.total ≤ c.last_start_at →
      scrape_all_issues server pk now (fuel + 1) (some (encodeCheckpoint c)) =
        ⟨.ok c.last_start_at, some (encodeCheckpoint c), [.request c.last_start_at], 1⟩) := by
  constructor
  · intro n hn
    obtain ⟨-, -, -, -, -, h6⟩ :=
      scrape_spec server pk now (fuel + 1) (some (encodeCheckpoint c))
    exact h6 n hn
  · intro h1 h2
    have hmk : makeRequest server (get_last_position (some (encodeCheckpoint c))) 0 =
        (.ok resp, 1, [.request (get_last_position (some (encodeCheckpoint c)))]) := by
      rw [makeRequest]
      exact makeRequestAux_ok h1 _ _
    have hfetch : fetch_issues server (get_last_position (some (encodeCheckpoint c)))
        (fuel + 1) 0 =
        (.ok resp, 1, [.request (get_last_position (some (encodeCheckpoint c)))]) := by
      rw [fetch_issues, hmk]
    have hnlt : ¬ get_last_position (some (encodeCheckpoint c)) < resp.total := by
      rw [get_last_position_encode]
      omega
    rw [scrape_all_issues, hfetch]
    dsimp only
    rw [scrapeLoop, if_neg hnlt]
    simp [get_last_position_encode]

/-- Witness for C10: checkpoint already at the remote total. -/
theorem c10_resume_counts_witness :
    (5 : Nat) = ckpt5.last_start_at +
      (batchCountsOf (scrape_all_issues total5Server "X" "t" 1
        (some (encodeCheckpoint ckpt5))).events).sum ∧
    scrape_all_issues total5Server "X" "t" 1 (some (encodeCheckpoint ckpt5)) =
      ⟨.ok ckpt5.last_start_at, some (encodeCheckpoint ckpt5),
        [.request ckpt5.last_start_at], 1⟩ :=
  ⟨(c10_resume_counts total5Server "X" "t" 0 ckpt5 ⟨5, []⟩).1 5 rfl,
   (c10_resume_counts total5Server "X" "t" 0 ckpt5 ⟨5, []⟩).2 rfl (by decide)⟩

end Scraper
